import Mathlib

/-
Verification of the gh-pr-reviewer core (main.go) against its specification.

Shallow embedding conventions:
  * Go strings are modelled as `List Char`; `gs` converts a Lean string
    literal into that representation.
  * Go runtime panics (out-of-range string slicing) are modelled with
    `GoResult`, where `GoResult.panicked` marks an aborted execution.
  * Go machine integers are modelled as `Int`; `strconv.Atoi` is modelled
    with its documented error values (0 on syntax error, the clamped
    64-bit extreme on range error).
  * Filesystem writes and network calls are modelled by explicit outcome
    parameters (success / failure injection) and by traces of the calls
    the code performs.
-/

namespace GhPrReviewer

/-- Convert a Lean string literal into the character-list model of Go strings. -/
def gs (s : String) : List Char := s.toList

/-- Model of Go strings.HasPrefix s p. -/
def goHasPrefix : List Char → List Char → Bool
  | _, [] => true
  | [], _ :: _ => false
  | a :: s, b :: p => a == b && goHasPrefix s p

/-- Model of Go strings.Split s sep for a one-character separator
(both call sites in main.go split on a single character). -/
def splitOnChar (sep : Char) : List Char → List (List Char)
  | [] => [[]]
  | c :: rest =>
    let r := splitOnChar sep rest
    if c == sep then [] :: r
    else
      match r with
      | [] => [[c]]
      | x :: xs => (c :: x) :: xs

/-- Model of Go strings.Contains s sub. -/
def goContains : List Char → List Char → Bool
  | [], sub => sub.isEmpty
  | c :: rest, sub => goHasPrefix (c :: rest) sub || goContains rest sub

/-- Model of Go strings.Index s sub: index of the first occurrence, `none` for -1. -/
def goIndexOf : List Char → List Char → Option Nat
  | [], sub => if sub.isEmpty then some 0 else none
  | c :: rest, sub =>
    if goHasPrefix (c :: rest) sub then some 0
    else (goIndexOf rest sub).map (· + 1)

/-- Model of Go strings.TrimSpace (whitespace at both ends removed). -/
def goTrimSpace (s : List Char) : List Char :=
  ((s.dropWhile Char.isWhitespace).reverse.dropWhile Char.isWhitespace).reverse

/-- Model of Go strings.TrimPrefix s p. -/
def goTrimPrefix (s p : List Char) : List Char :=
  if goHasPrefix s p then s.drop p.length else s

/-- Model of Go strings.ToLower (the tokens searched for are ASCII). -/
def goToLower (s : List Char) : List Char := s.map Char.toLower

/-- Numeric value of a run of decimal digit characters. -/
def digitsToNat (ds : List Char) : Nat :=
  ds.foldl (fun a c => a * 10 + (c.toNat - 48)) 0

/-- Model of Go strconv.Atoi: returns (value, err == nil). Syntax errors
return value 0; range errors return the clamped 64-bit extreme (per the
strconv documentation). -/
def goAtoi (s : List Char) : Int × Bool :=
  let signed : Bool × List Char :=
    match s with
    | '+' :: r => (false, r)
    | '-' :: r => (true, r)
    | r => (false, r)
  let digits := signed.2
  if digits.isEmpty || !(digits.all Char.isDigit) then (0, false)
  else
    let m : Int := (digitsToNat digits : Nat)
    let v : Int := if signed.1 then -m else m
    if v > 9223372036854775807 then (9223372036854775807, false)
    else if v < -9223372036854775808 then (-9223372036854775808, false)
    else (v, true)

/-- Model of Go strconv.Atoi restricted to the regex capture \d+ of
extractComments: `none` when err != nil (there: only the int64 range error). -/
def goAtoiDigits (ds : List Char) : Option Int :=
  if ds.isEmpty || !(ds.all Char.isDigit) then none
  else
    let v : Nat := digitsToNat ds
    if v ≤ 9223372036854775807 then some (v : Int) else none

/-- Decimal rendering of an Int, as Go fmt %d prints it. -/
def goItoa (n : Int) : List Char :=
  if n < 0 then '-' :: Nat.toDigits 10 n.natAbs else Nat.toDigits 10 n.natAbs

/-- Model of Go strings.Join with separator "\n". -/
def joinNL : List (List Char) → List Char
  | [] => []
  | [x] => x
  | x :: y :: xs => x ++ '\n' :: joinNL (y :: xs)

/-- Result of running a piece of Go code that can panic: either the
computed value or an aborted execution (runtime panic). -/
inductive GoResult (α : Type) where
  | panicked
  | ok (val : α)
deriving DecidableEq

/-- One changed file of the pull request, as delivered by the Diff Source
(github.CommitFile: Filename and optional Patch). -/
structure CommitFile where
  filename : List Char
  patch : Option (List Char)
deriving DecidableEq

/-- One entry appended to simplifiedChanges by simplifyPatch. The three
constructors mirror the three fmt.Sprintf calls of the source:
"File: %s\nChanges:", "+ Line %d: %s" and "- Line %d: %s". -/
inductive SimpEntry where
  | fileHeader (name : List Char)
  | added (lineNumber : Int) (content : List Char)
  | removed (lineNumber : Int) (content : List Char)
deriving DecidableEq

/-- The string each SimpEntry renders to (the fmt.Sprintf formats of simplifyPatch). -/
def renderSimpEntry : SimpEntry → List Char
  | .fileHeader name => gs "File: " ++ name ++ gs "\nChanges:"
  | .added n c => gs "+ Line " ++ goItoa n ++ gs ": " ++ c
  | .removed n c => gs "- Line " ++ goItoa n ++ gs ": " ++ c

/-- The hunk-header branch of simplifyPatch (lines 316-323 of main.go):
split the line on spaces; with at least three parts, take parts[2][1:]
(Go panics when parts[2] is empty: modelled as GoResult.panicked), split it on
a comma, and assign the counter to the Atoi value of the first piece,
discarding the Atoi error. With fewer than three parts the counter keeps
its prior value. -/
def hunkHeaderStep (lineNumber : Int) (line : List Char) : GoResult Int :=
  let parts := splitOnChar ' ' line
  if parts.length ≥ 3 then
    let p2 := parts.getD 2 []
    if p2.length = 0 then GoResult.panicked
    else
      let newLineInfo := splitOnChar ',' (p2.drop 1)
      GoResult.ok (goAtoi (newLineInfo.headD [])).1
  else GoResult.ok lineNumber

/-- One iteration of the per-line loop of simplifyPatch (lines 315-332):
hunk headers update the counter; "+" lines are recorded at the counter and
increment it; "-" lines are recorded at the counter without incrementing
it; all other lines only increment the counter. -/
def simplifyLineStep (n : Int) (out : List SimpEntry) (line : List Char) :
    GoResult (Int × List SimpEntry) :=
  if goHasPrefix line (gs "@@") then
    match hunkHeaderStep n line with
    | GoResult.panicked => GoResult.panicked
    | GoResult.ok n2 => GoResult.ok (n2, out)
  else if goHasPrefix line (gs "+") then
    GoResult.ok (n + 1, out ++ [SimpEntry.added n (goTrimPrefix line (gs "+"))])
  else if goHasPrefix line (gs "-") then
    GoResult.ok (n, out ++ [SimpEntry.removed n (goTrimPrefix line (gs "-"))])
  else
    GoResult.ok (n + 1, out)

/-- The per-line loop of simplifyPatch over the remaining lines. -/
def processLines (n : Int) (out : List SimpEntry) :
    List (List Char) → GoResult (Int × List SimpEntry)
  | [] => GoResult.ok (n, out)
  | l :: ls =>
    match simplifyLineStep n out l with
    | GoResult.panicked => GoResult.panicked
    | GoResult.ok (n2, out2) => processLines n2 out2 ls

/-- simplifyPatch for one file: skip files without a patch; otherwise
append the file header, reset the counter to 0 and run the line loop over
the patch split on newlines. -/
def simplifyFile (f : CommitFile) : GoResult (List SimpEntry) :=
  match f.patch with
  | none => GoResult.ok []
  | some p =>
    match processLines 0 [SimpEntry.fileHeader f.filename] (splitOnChar '\n' p) with
    | GoResult.panicked => GoResult.panicked
    | GoResult.ok r => GoResult.ok r.2

/-- Model of simplifyPatch (lines 308-336 of main.go), returning the
ordered entries collected over all files; GoResult.panicked models the Go
runtime panic on parts[2][1:] with an empty parts[2]. -/
def simplifyPatch : List CommitFile → GoResult (List SimpEntry)
  | [] => GoResult.ok []
  | f :: fs =>
    match simplifyFile f with
    | GoResult.panicked => GoResult.panicked
    | GoResult.ok es =>
      match simplifyPatch fs with
      | GoResult.panicked => GoResult.panicked
      | GoResult.ok es2 => GoResult.ok (es ++ es2)

/-- The string simplifyPatch returns: the rendered entries joined by newlines. -/
def simplifyPatchString (files : List CommitFile) : GoResult (List Char) :=
  match simplifyPatch files with
  | GoResult.panicked => GoResult.panicked
  | GoResult.ok es => GoResult.ok (joinNL (es.map renderSimpEntry))

/-- The verdict branch of generateReviewWithAssistant (lines 438-446 of
main.go): lowercase the response; if it contains the approve token the
action is "approve"; otherwise, if it contains the request-changes token,
or in all remaining cases, the action is "request_changes". -/
def extractAction (responseText : List Char) : List Char :=
  if goContains (goToLower responseText) (gs "__approve__") then gs "approve"
  else if goContains (goToLower responseText) (gs "__request_changes__") then gs "request_changes"
  else gs "request_changes"

/-- One draft review comment (github.DraftReviewComment: Path, Line, Body). -/
structure DraftReviewComment where
  path : List Char
  line : Int
  body : List Char
deriving DecidableEq

/-- Consume the literal lit at the front of s, returning the remainder. -/
def stripLit (lit s : List Char) : Option (List Char) :=
  if goHasPrefix s lit then some (s.drop lit.length) else none

/-- Attempt a match of the extractComments pattern starting exactly at the
front of s. The pattern is the source regex: the literal text, a nonempty
run of non-quote characters (the file name), a nonempty run of ASCII
digits (the line number) and a nonempty run of non-quote characters (the
comment), each greedy; since the character classes exclude the delimiter
that follows them, the backtracking search of the regex engine has exactly
this one candidate per start position. -/
def tryMatchComment (s : List Char) : Option (List Char × List Char × List Char) :=
  match stripLit (gs "- File: \"") s with
  | none => none
  | some s1 =>
    let f := s1.takeWhile (fun c => c != '"')
    let s2 := s1.drop f.length
    if f.isEmpty then none
    else
      match stripLit (gs "\", Line ") s2 with
      | none => none
      | some s3 =>
        let d := s3.takeWhile Char.isDigit
        let s4 := s3.drop d.length
        if d.isEmpty then none
        else
          match stripLit (gs ": \"") s4 with
          | none => none
          | some s5 =>
            let b := s5.takeWhile (fun c => c != '"')
            let s6 := s5.drop b.length
            if b.isEmpty then none
            else
              match s6 with
              | '"' :: _ => some (f, d, b)
              | _ => none

/-- Model of re.FindStringSubmatch for the fixed pattern of extractComments
(line 497 of main.go): the leftmost match in the line, returning the three
captures (file, digit run, comment). -/
def matchCommentLine : List Char → Option (List Char × List Char × List Char)
  | [] => none
  | c :: rest =>
    match tryMatchComment (c :: rest) with
    | some r => some r
    | none => matchCommentLine rest

/-- The body of the per-line loop of extractComments (lines 493-519 of
main.go): trim the line, match the pattern, convert the captured digits
with Atoi (skipping the line on an Atoi error), and keep the comment only
when the cited file is a key of the file map; everything else is skipped.
The file set models the key set of the fileMap built in
generateReviewWithAssistant (the files that carry a patch). -/
def acceptLine (fileSet : List (List Char)) (raw : List Char) : Option DraftReviewComment :=
  let line := goTrimSpace raw
  match matchCommentLine line with
  | none => none
  | some (f, digits, body) =>
    match goAtoiDigits digits with
    | none => none
    | some n => if fileSet.contains f then some ⟨f, n, body⟩ else none

/-- The accumulation loop of extractComments: Go appends each accepted
comment to the reviewComments slice in line order. -/
def extractLoop (fileSet : List (List Char)) :
    List (List Char) → List DraftReviewComment → List DraftReviewComment
  | [], acc => acc
  | l :: ls, acc =>
    match acceptLine fileSet l with
    | none => extractLoop fileSet ls acc
    | some c => extractLoop fileSet ls (acc ++ [c])

/-- The lines of the section scanned by extractComments: everything from
the first occurrence of the section header to the end of the response,
split on newlines; no header means no candidate lines. -/
def sectionLines (responseText : List Char) : List (List Char) :=
  match goIndexOf responseText (gs "### Specific Comments:") with
  | none => []
  | some idx => splitOnChar '\n' (responseText.drop idx)

/-- Model of extractComments (lines 478-522 of main.go): locate the
section header (absent: return no comments and a nil error), run the
per-line loop over the section, and return the collected comments with a
nil error. The second component models the Go error return value. -/
def extractComments (responseText : List Char) (fileSet : List (List Char)) :
    List DraftReviewComment × Option (List Char) :=
  match goIndexOf responseText (gs "### Specific Comments:") with
  | none => ([], none)
  | some idx =>
    let lines := splitOnChar '\n' (responseText.drop idx)
    (extractLoop fileSet lines [], none)

/-- A saved review as persisted by the cache (the SavedReview struct of
main.go: Review, ReviewComments, Action). -/
structure SavedReview where
  review : List Char
  reviewComments : List DraftReviewComment
  action : List Char
deriving DecidableEq

/-- Outcome of one os.WriteFile call (failure injection for the model). -/
inductive WriteOutcome where
  | ok
  | ioError
deriving DecidableEq

/-- The two on-disk blobs of one cache entry: the .md narrative file and
the .json structured file (their paths are derived from reviewFilePath by
the ".json" to ".md" replacement of the source). -/
structure CacheFS where
  mdBlob : Option (List Char)
  jsonBlob : Option SavedReview
deriving DecidableEq

/-- Model of saveReviewToFile (lines 231-256 of main.go): write the
narrative to the .md file, returning its error on failure; then marshal
a SavedReview with an empty Review field together with the comments and
action and write it to the .json file, returning its error on failure.
The Bool result is true exactly when the function returns a nil error;
w1 and w2 inject the outcomes of the two writes. -/
def saveReviewToFile (fs : CacheFS) (review : List Char)
    (reviewComments : List DraftReviewComment) (action : List Char)
    (w1 w2 : WriteOutcome) : CacheFS × Bool :=
  match w1 with
  | WriteOutcome.ioError => (fs, false)
  | WriteOutcome.ok =>
    let fs1 : CacheFS := { fs with mdBlob := some review }
    match w2 with
    | WriteOutcome.ioError => (fs1, false)
    | WriteOutcome.ok => ({ fs1 with jsonBlob := some ⟨[], reviewComments, action⟩ }, true)

/-- The checksPassed computation of main (lines 97-103): false exactly
when some check run has conclusion "failure" (the loop breaks at the
first such run). -/
def goChecksPassed (conclusions : List (List Char)) : Bool :=
  !(conclusions.any (fun c => c == gs "failure"))

/-- The third-party state decision of main (lines 201-210). -/
def decideThirdPartyState (action : List Char) (checksPassed : Bool) : List Char :=
  if action == gs "approve" && checksPassed then gs "APPROVE"
  else if action == gs "request_changes" || !checksPassed then gs "REQUEST_CHANGES"
  else gs "REQUEST_CHANGES"

/-- The comment body of a self-review (lines 180-185 of main.go). -/
def selfCommentBody (review action : List Char) : List Char :=
  if action == gs "approve" then review ++ gs "\n\n**Note:** This is a self-approved PR."
  else if action == gs "request_changes" then review ++ gs "\n\n**Note:** This is a self-requested change."
  else review

/-- Outcome of a CreateReview call against the Code-Host Sink: success, a
github.ErrorResponse with HTTP status 422 (the "one pending review
already exists" rejection), or any other error. -/
inductive COutcome where
  | success
  | err422
  | errOther
deriving DecidableEq

/-- Model of postReviewWithComments (lines 525-544 of main.go): a nil
error is returned both on success and on a 422 response (which is only
logged); any other error is passed back to the caller. True = nil error. -/
def postReviewErrIsNil : COutcome → Bool
  | COutcome.success => true
  | COutcome.err422 => true
  | COutcome.errOther => false

/-- One mutating call made to the Code-Host Sink. -/
inductive SinkWrite where
  | dismiss
  | createReview (event : List Char) (body : List Char) (comments : List DraftReviewComment)
deriving DecidableEq

/-- Process exit of a run: ok models a normal return of main, errorExit
models os.Exit(1) and log.Fatalf. -/
inductive ExitStatus where
  | ok
  | errorExit
deriving DecidableEq

/-- Trace of one run of main: the sink writes in order, whether
saveReviewToFile was invoked, whether generateReviewWithAssistant was
invoked and succeeded, and the exit status. -/
structure MainOutcome where
  sinkWrites : List SinkWrite
  cacheWritten : Bool
  reviewGenerated : Bool
  exit : ExitStatus
deriving DecidableEq

/-- Inputs of one run of main (lines 26-219 of main.go), with the
external collaborators modelled as oracles: the loadable cache entry
(none when the file is missing or fails to load), the check-run
conclusions, whether a pending review exists and whether dismissing it
succeeds, whether generateReviewWithAssistant succeeds and the triple it
returns, the self-review identity test, the two flags, and the outcome
of the CreateReview call. -/
structure MainInputs where
  savedReview : Option SavedReview
  checkConclusions : List (List Char)
  pendingReview : Bool
  dismissOk : Bool
  genOk : Bool
  generated : SavedReview
  isSelfReview : Bool
  dryRun : Bool
  forcedry : Bool
  createOutcome : COutcome
deriving DecidableEq

/-- Line 141 of main.go: the generator runs when no saved review was
loaded or forcedry is set. -/
def generatorRuns (i : MainInputs) : Bool := i.savedReview.isNone || i.forcedry

/-- Lines 141-162 of main.go: the review, comments and action used by the
rest of the run (freshly generated, or taken from the saved review). -/
def resolvedReview (i : MainInputs) : SavedReview :=
  match i.savedReview with
  | some s => if i.forcedry then i.generated else s
  | none => i.generated

/-- Trace semantics of main from the cache lookup on (lines 64-219 of
main.go): a loaded saved review plus dry run returns at once; a pending
review plus dry run returns before the dismissal; otherwise a pending
review is dismissed; the generator runs per generatorRuns; dry or force
runs save to the cache and return without posting; a self-review posts
one COMMENT review and dies on any posting error; a third-party run posts
one review whose event comes from decideThirdPartyState, fatal only when
postReviewWithComments passes an error through (not on 422). -/
def mainFlow (i : MainInputs) : MainOutcome :=
  if i.savedReview.isSome && i.dryRun then
    ⟨[], false, false, ExitStatus.ok⟩
  else if i.pendingReview && i.dryRun then
    ⟨[], false, false, ExitStatus.ok⟩
  else
    let w0 : List SinkWrite := if i.pendingReview then [SinkWrite.dismiss] else []
    if i.pendingReview && !i.dismissOk then
      ⟨w0, false, false, ExitStatus.errorExit⟩
    else if generatorRuns i && !i.genOk then
      ⟨w0, false, false, ExitStatus.errorExit⟩
    else
      let r := resolvedReview i
      if i.dryRun || i.forcedry then
        ⟨w0, true, generatorRuns i, ExitStatus.ok⟩
      else if i.isSelfReview then
        let w := w0 ++ [SinkWrite.createReview (gs "COMMENT")
          (selfCommentBody r.review r.action) r.reviewComments]
        if i.createOutcome == COutcome.success then ⟨w, false, generatorRuns i, ExitStatus.ok⟩
        else ⟨w, false, generatorRuns i, ExitStatus.errorExit⟩
      else
        let st := decideThirdPartyState r.action (goChecksPassed i.checkConclusions)
        let w := w0 ++ [SinkWrite.createReview st r.review r.reviewComments]
        if postReviewErrIsNil i.createOutcome then ⟨w, false, generatorRuns i, ExitStatus.ok⟩
        else ⟨w, false, generatorRuns i, ExitStatus.errorExit⟩

/-- The events of the CreateReview calls in a trace, in order. -/
def createReviewEvents (ws : List SinkWrite) : List (List Char) :=
  ws.filterMap (fun w =>
    match w with
    | SinkWrite.dismiss => none
    | SinkWrite.createReview ev _ _ => some ev)

example : gs "ab" = ['a', 'b'] := by decide

example :
    mainFlow ⟨none, [], false, true, true, ⟨gs "r", [], gs "approve"⟩, false, true, false,
        COutcome.success⟩
      = ⟨[], true, true, ExitStatus.ok⟩ := by decide

example :
    (mainFlow ⟨some ⟨gs "r", [], gs "approve"⟩, [], true, true, true, ⟨[], [], []⟩, true, false,
        false, COutcome.err422⟩).exit = ExitStatus.errorExit := by decide

example :
    (mainFlow ⟨some ⟨gs "r", [], gs "approve"⟩, [], true, true, true, ⟨[], [], []⟩, false, false,
        false, COutcome.err422⟩).exit = ExitStatus.ok := by decide

example :
    createReviewEvents (mainFlow ⟨some ⟨gs "r", [], gs "approve"⟩, [gs "failure"], false, true,
        true, ⟨[], [], []⟩, false, false, false, COutcome.success⟩).sinkWrites
      = [gs "REQUEST_CHANGES"] := by decide

/-- Helper: full case description of decideThirdPartyState. The result is
APPROVE exactly for an approve action with passing checks, and
REQUEST_CHANGES in every other case. -/
theorem decideState_spec (action : List Char) (cp : Bool) :
    (decideThirdPartyState action cp = gs "APPROVE" ↔ (action = gs "approve" ∧ cp = true)) ∧
    (decideThirdPartyState action cp = gs "APPROVE" ∨
      decideThirdPartyState action cp = gs "REQUEST_CHANGES") := by
  have h1 : gs "APPROVE" ≠ gs "REQUEST_CHANGES" := by decide
  unfold decideThirdPartyState
  by_cases ha : action = gs "approve" <;> cases cp <;>
    simp [ha, h1, Ne.symm h1]

/-- Helper: extractLoop is the in-order filterMap of acceptLine. -/
theorem extractLoop_eq (fileSet : List (List Char)) (ls : List (List Char))
    (acc : List DraftReviewComment) :
    extractLoop fileSet ls acc = acc ++ ls.filterMap (acceptLine fileSet) := by
  induction ls generalizing acc with
  | nil => simp [extractLoop]
  | cons l ls ih =>
    cases h : acceptLine fileSet l with
    | none => simp [extractLoop, h, ih]
    | some c => simp [extractLoop, h, ih]

/-- Helper: an accepted comment cites a file of the valid-file set. -/
theorem acceptLine_mem_fileSet (fileSet : List (List Char)) (raw : List Char)
    (c : DraftReviewComment) (h : acceptLine fileSet raw = some c) :
    fileSet.contains c.path = true := by
  simp only [acceptLine] at h
  cases hm : matchCommentLine (goTrimSpace raw) with
  | none => simp [hm] at h
  | some t =>
    obtain ⟨f, d, b⟩ := t
    cases ha : goAtoiDigits d with
    | none => simp [hm, ha] at h
    | some n =>
      simp only [hm, ha] at h
      split at h
      next hcond =>
        injection h with h2
        rw [← h2]
        exact hcond
      next hcond => cases h

example : extractAction (gs "Looks good. __APPROVE__") = gs "approve" := by decide

example : extractAction (gs "__approve__ but also __request_changes__") = gs "approve" := by decide

example : extractAction (gs "nothing here") = gs "request_changes" := by decide

example :
    (extractComments (gs "### Specific Comments:\n- File: \"f\", Line 0: \"   \"") [gs "f"]).1
      = [⟨gs "f", 0, gs "   "⟩] := by decide

example :
    (extractComments (gs "### Specific Comments:\n- File: \"g\", Line 3: \"bad\"") [gs "f"]).1
      = [] := by decide

example :
    (extractComments (gs "text without header\n- File: \"f\", Line 3: \"x\"") [gs "f"]).1
      = [] := by decide

example :
    (extractComments (gs "### Specific Comments:\n  - File: \"f\", Line 12: \"use x\" trailing") [gs "f"]).1
      = [⟨gs "f", 12, gs "use x"⟩] := by decide

example :
    simplifyPatch [⟨gs "f", some (gs "@@ -1,1 +3,1 @@\n-x")⟩]
      = GoResult.ok [SimpEntry.fileHeader (gs "f"), SimpEntry.removed 3 (gs "x")] := by decide

example :
    simplifyPatch [⟨gs "f", some (gs "@@ -1,1 ")⟩] = GoResult.panicked := by decide

example :
    simplifyPatch [⟨gs "f", some (gs "@@ -1,1 +5,2 @@\n+a\n@@ -9,9 +zzz,1 @@\n+b")⟩]
      = GoResult.ok [SimpEntry.fileHeader (gs "f"), SimpEntry.added 5 (gs "a"),
          SimpEntry.added 0 (gs "b")] := by decide

example :
    simplifyPatch [⟨gs "f", some (gs "@@ -1,2 +1,3 @@\n line1\n+line2\n line3")⟩]
      = GoResult.ok [SimpEntry.fileHeader (gs "f"), SimpEntry.added 2 (gs "line2")] := by decide

/-- C1 counterexample: the claim states that a response containing both
verdict tokens yields requestChanges (fail-closed). The response below
contains both tokens, yet extractAction returns "approve", because the
source tests the approve token first; so the claim as stated is false. -/
theorem C1_verdict_counterexample :
    goContains (goToLower (gs "__approve__ and __request_changes__")) (gs "__approve__") = true ∧
    goContains (goToLower (gs "__approve__ and __request_changes__")) (gs "__request_changes__") = true ∧
    extractAction (gs "__approve__ and __request_changes__") = gs "approve" ∧
    gs "approve" ≠ gs "request_changes" := by decide

/-- C1 amended: the extracted verdict is approve exactly when the
lowercased response contains the approve token — even when the
request-changes token is also present; in every other case (only the
request-changes token, or neither token) the verdict is request_changes. -/
theorem C1_verdict_amended (t : List Char) :
    (extractAction t = gs "approve" ↔ goContains (goToLower t) (gs "__approve__") = true) ∧
    (extractAction t = gs "approve" ∨ extractAction t = gs "request_changes") := by
  have hne : gs "request_changes" ≠ gs "approve" := by decide
  unfold extractAction
  by_cases h1 : goContains (goToLower t) (gs "__approve__") = true
  · simp [h1]
  · by_cases h2 : goContains (goToLower t) (gs "__request_changes__") = true
    · simp [h1, h2, hne]
    · simp [h1, h2, hne]

/-- C1 witness: the amended theorem evaluated on a concrete response with
no verdict token. -/
theorem C1_verdict_amended_witness :
    (extractAction (gs "no tokens") = gs "approve" ↔
      goContains (goToLower (gs "no tokens")) (gs "__approve__") = true) ∧
    (extractAction (gs "no tokens") = gs "approve" ∨
      extractAction (gs "no tokens") = gs "request_changes") :=
  C1_verdict_amended (gs "no tokens")

/-- C3 counterexample: the claim states that a removed line is recorded
with no target-file line position. The two patches below contain the same
removed line "-x" and differ only in the new-file start of the hunk
header, yet their removed records differ — the record carries the running
counter (the target-file position), and renders as "- Line 3: x". -/
theorem C3_removed_counterexample :
    simplifyPatch [⟨gs "f", some (gs "@@ -1,1 +3,1 @@\n-x")⟩]
      = GoResult.ok [SimpEntry.fileHeader (gs "f"), SimpEntry.removed 3 (gs "x")] ∧
    simplifyPatch [⟨gs "f", some (gs "@@ -1,1 +7,1 @@\n-x")⟩]
      = GoResult.ok [SimpEntry.fileHeader (gs "f"), SimpEntry.removed 7 (gs "x")] ∧
    SimpEntry.removed 3 (gs "x") ≠ SimpEntry.removed 7 (gs "x") ∧
    renderSimpEntry (SimpEntry.removed 3 (gs "x")) = gs "- Line 3: x" := by decide

/-- C3 amended: a line starting with a dash is recorded as a removed
record that carries the current running counter value as its printed line
number, and processing it leaves the counter unchanged (context lines,
by contrast, produce no record at all and increment the counter). -/
theorem C3_removed_amended (n : Int) (out : List SimpEntry) (line : List Char)
    (h : goHasPrefix line (gs "-") = true) :
    simplifyLineStep n out line
      = GoResult.ok (n, out ++ [SimpEntry.removed n (line.drop 1)]) := by
  have hdash : gs "-" = ['-'] := by decide
  cases line with
  | nil => rw [hdash] at h; simp [goHasPrefix] at h
  | cons c rest =>
    rw [hdash] at h
    have hc : c = '-' := by
      by_cases hcc : c = '-'
      · exact hcc
      · exfalso
        have hb : (c == '-') = false := by
          simp [hcc]
        simp [goHasPrefix, hb] at h
    subst hc
    have hAt : gs "@@" = ['@', '@'] := by decide
    have hPlus : gs "+" = ['+'] := by decide
    have e1 : goHasPrefix ('-' :: rest) ['@', '@'] = false := by
      simp only [goHasPrefix]
      rw [show ('-' == '@') = false from by decide, Bool.false_and]
    have e2 : goHasPrefix ('-' :: rest) ['+'] = false := by
      simp only [goHasPrefix]
      rw [show ('-' == '+') = false from by decide, Bool.false_and]
    have e3 : goHasPrefix ('-' :: rest) ['-'] = true := by
      simp only [goHasPrefix]
      rw [show ('-' == '-') = true from by decide, Bool.true_and]
    simp [simplifyLineStep, goTrimPrefix, hAt, hPlus, hdash, e1, e2, e3]

/-- C3 witness: the amended theorem evaluated on a concrete removed line. -/
theorem C3_removed_amended_witness :
    simplifyLineStep 5 [] (gs "-abc")
      = GoResult.ok (5, [SimpEntry.removed 5 ((gs "-abc").drop 1)]) :=
  C3_removed_amended 5 [] (gs "-abc") (by decide)

/-- C4 counterexample: the claim states that a hunk header whose new-file
field does not parse as a number leaves the counter at its prior value.
For the header below the field is "+zzz,1", whose number part "zzz" does
not parse, and the counter moves from 6 to 0 (the Atoi error value), not
to its prior value. -/
theorem C4_hunk_counterexample :
    (goAtoi (gs "zzz")).2 = false ∧
    hunkHeaderStep 6 (gs "@@ -9,9 +zzz,1 @@") = GoResult.ok 0 ∧
    (GoResult.ok 0 : GoResult Int) ≠ GoResult.ok 6 := by decide

/-- C4 amended: on a hunk-header line, a missing new-file field (fewer
than three space-separated parts) leaves the counter at its prior value,
while a present but non-numeric field sets the counter to 0 (the value
strconv.Atoi returns with a syntax error); in both cases no record is
discarded (the collected entries are unchanged and processing continues). -/
theorem C4_hunk_amended (n : Int) (out : List SimpEntry) (line : List Char)
    (hat : goHasPrefix line (gs "@@") = true) :
    ((splitOnChar ' ' line).length < 3 →
      simplifyLineStep n out line = GoResult.ok (n, out)) ∧
    (∀ fld, fld = (splitOnChar ',' (((splitOnChar ' ' line).getD 2 []).drop 1)).headD [] →
      3 ≤ (splitOnChar ' ' line).length →
      ((splitOnChar ' ' line).getD 2 []) ≠ [] →
      goAtoi fld = (0, false) →
      simplifyLineStep n out line = GoResult.ok (0, out)) := by
  constructor
  · intro hlen
    have hnot : ¬ (splitOnChar ' ' line).length ≥ 3 := by omega
    have hh : hunkHeaderStep n line = GoResult.ok n := by
      simp only [hunkHeaderStep]
      rw [if_neg hnot]
    unfold simplifyLineStep
    rw [if_pos hat, hh]
  · intro fld hfld hlen hne h0
    have hge : (splitOnChar ' ' line).length ≥ 3 := hlen
    have hlz : ¬ ((splitOnChar ' ' line).getD 2 []).length = 0 := by
      simpa [List.length_eq_zero] using hne
    have hh : hunkHeaderStep n line = GoResult.ok 0 := by
      simp only [hunkHeaderStep]
      rw [if_pos hge, if_neg hlz, ← hfld, h0]
    unfold simplifyLineStep
    rw [if_pos hat, hh]

/-- C4 witness: the amended theorem evaluated on a header with a missing
field (counter stays 6) and on a header with a non-numeric field (counter
becomes 0). -/
theorem C4_hunk_amended_witness :
    simplifyLineStep 6 [] (gs "@@ incomplete") = GoResult.ok (6, []) ∧
    simplifyLineStep 6 [] (gs "@@ -9,9 +zzz,1 @@") = GoResult.ok (0, []) := by
  constructor
  · exact (C4_hunk_amended 6 [] (gs "@@ incomplete") (by decide)).1 (by decide)
  · exact (C4_hunk_amended 6 [] (gs "@@ -9,9 +zzz,1 @@") (by decide)).2
      (gs "zzz") (by decide) (by decide) (by decide) (by decide)

/-- C5: the diff normalizer does not always run to completion. On a patch
containing the line "@@ -1,1 " (a malformed hunk header with a trailing
space, so that the third space-separated field is empty), the source
evaluates parts[2][1:] on the empty string, which panics with a
slice-bounds-out-of-range runtime error; the model returns the panic
marker. This contradicts the claim that the normalizer never aborts on
malformed input and contradicts the evident intent of the source (the
len(parts) >= 3 guard and the discarded Atoi error), so the code, not
the claim, is wrong here. -/
theorem C5_panic_on_malformed_header :
    simplifyPatch [⟨gs "f", some (gs "@@ -1,1 ")⟩] = GoResult.panicked := by decide

/-- C6 counterexample: the claim states that no execution leaves a cache
entry with one blob visible and the other absent. Starting from an empty
entry, a successful narrative write followed by a failed structured write
leaves the narrative blob visible and the structured blob absent, so the
store is not atomic. -/
theorem C6_cache_counterexample :
    (saveReviewToFile ⟨none, none⟩ (gs "r") [] (gs "approve")
        WriteOutcome.ok WriteOutcome.ioError).1.mdBlob = some (gs "r") ∧
    (saveReviewToFile ⟨none, none⟩ (gs "r") [] (gs "approve")
        WriteOutcome.ok WriteOutcome.ioError).1.jsonBlob = none := by decide

/-- C6 amended: the store is sequential, not atomic: the narrative blob
is written first; a failed narrative write changes nothing and reports an
error; a failed structured write after a successful narrative write
reports an error but leaves the narrative blob visible with the
structured blob untouched; when both writes succeed both blobs are
visible. -/
theorem C6_cache_amended (fs : CacheFS) (review : List Char)
    (comments : List DraftReviewComment) (action : List Char) :
    (saveReviewToFile fs review comments action WriteOutcome.ok WriteOutcome.ok
        = (⟨some review, some ⟨[], comments, action⟩⟩, true)) ∧
    (∀ w2, saveReviewToFile fs review comments action WriteOutcome.ioError w2 = (fs, false)) ∧
    (saveReviewToFile fs review comments action WriteOutcome.ok WriteOutcome.ioError
        = (⟨some review, fs.jsonBlob⟩, false)) :=
  ⟨rfl, fun _ => rfl, rfl⟩

/-- C6 witness: the amended theorem evaluated on a concrete empty cache
entry, for the both-writes-succeed case and the first-write-fails case. -/
theorem C6_cache_amended_witness :
    saveReviewToFile ⟨none, none⟩ (gs "r") [] (gs "approve") WriteOutcome.ok WriteOutcome.ok
      = (⟨some (gs "r"), some ⟨[], [], gs "approve"⟩⟩, true) ∧
    saveReviewToFile ⟨none, none⟩ (gs "r") [] (gs "approve") WriteOutcome.ioError WriteOutcome.ok
      = (⟨none, none⟩, false) :=
  ⟨(C6_cache_amended ⟨none, none⟩ (gs "r") [] (gs "approve")).1,
   (C6_cache_amended ⟨none, none⟩ (gs "r") [] (gs "approve")).2.1 WriteOutcome.ok⟩

/-- C8 counterexample: the claim states that a candidate with line number
0 is rejected and that a candidate whose comment is all whitespace is
rejected. The candidate below cites line 0 with a three-space comment and
is accepted, stored with line 0 and the untrimmed whitespace body. -/
theorem C8_comment_counterexample :
    (extractComments (gs "### Specific Comments:\n- File: \"f\", Line 0: \"   \"") [gs "f"]).1
      = [⟨gs "f", 0, gs "   "⟩] ∧
    ¬ ((0 : Int) > 0) ∧
    goTrimSpace (gs "   ") = [] := by decide

/-- C8 amended: a candidate line is accepted exactly when its trimmed
text contains a fragment matching the fixed pattern (nonempty quoted
file, nonempty digit run accepted by Atoi, nonempty quoted comment) and
the cited file belongs to the valid-file set; the digit run may be "0"
(line numbers are not required to be positive) and the body is stored
exactly as matched, without trimming. -/
theorem C8_comment_amended (fileSet : List (List Char)) (raw : List Char)
    (c : DraftReviewComment) :
    acceptLine fileSet raw = some c ↔
      ∃ f digits body,
        matchCommentLine (goTrimSpace raw) = some (f, digits, body) ∧
        goAtoiDigits digits = some c.line ∧
        fileSet.contains f = true ∧ c.path = f ∧ c.body = body := by
  constructor
  · intro h
    simp only [acceptLine] at h
    cases hm : matchCommentLine (goTrimSpace raw) with
    | none => simp [hm] at h
    | some t =>
      obtain ⟨f, d, b⟩ := t
      cases ha : goAtoiDigits d with
      | none => simp [hm, ha] at h
      | some m =>
        simp only [hm, ha] at h
        split at h
        next hcond =>
          injection h with h2
          subst h2
          exact ⟨f, d, b, rfl, ha, hcond, rfl, rfl⟩
        next hcond => cases h
  · rintro ⟨f, d, b, hm, ha, hf, hp, hb⟩
    simp only [acceptLine, hm, ha]
    rw [if_pos hf]
    obtain ⟨cp, cl, cb⟩ := c
    simp only at hp hb ⊢
    rw [hp, hb]

/-- C8 witness: the amended theorem used to evaluate acceptance of a
concrete well-formed candidate. -/
theorem C8_comment_amended_witness :
    acceptLine [gs "a.go"] (gs "- File: \"a.go\", Line 3: \"use y\"")
      = some ⟨gs "a.go", 3, gs "use y"⟩ :=
  (C8_comment_amended [gs "a.go"] (gs "- File: \"a.go\", Line 3: \"use y\"")
      ⟨gs "a.go", 3, gs "use y"⟩).mpr
    ⟨gs "a.go", gs "3", gs "use y", by decide, by decide, by decide, rfl, rfl⟩

/-- C10: the comment extractor is total and validating: its error result
is always nil (the error branch of the caller is unreachable), its output
is exactly the in-order filterMap of the acceptance test over the lines
of the comment section (so comments appear in the order their lines occur
in the response), and every returned comment cites a file of the
valid-file set. -/
theorem C10_extract_total (responseText : List Char) (fileSet : List (List Char)) :
    (extractComments responseText fileSet).2 = none ∧
    (extractComments responseText fileSet).1
        = (sectionLines responseText).filterMap (acceptLine fileSet) ∧
    ∀ c ∈ (extractComments responseText fileSet).1, fileSet.contains c.path = true := by
  have h2 : (extractComments responseText fileSet).1
      = (sectionLines responseText).filterMap (acceptLine fileSet) := by
    unfold extractComments sectionLines
    cases h : goIndexOf responseText (gs "### Specific Comments:") with
    | none => simp
    | some idx => simp [extractLoop_eq]
  refine ⟨?_, h2, ?_⟩
  · unfold extractComments
    cases h : goIndexOf responseText (gs "### Specific Comments:") <;> simp
  · intro c hc
    rw [h2, List.mem_filterMap] at hc
    obtain ⟨raw, hraw, hacc⟩ := hc
    exact acceptLine_mem_fileSet fileSet raw c hacc

/-- C10 witness: the theorem evaluated on a concrete response and file set. -/
theorem C10_extract_total_witness :
    (extractComments (gs "### Specific Comments:\n- File: \"f\", Line 2: \"x\"") [gs "f"]).2
        = none ∧
    (extractComments (gs "### Specific Comments:\n- File: \"f\", Line 2: \"x\"") [gs "f"]).1
        = (sectionLines (gs "### Specific Comments:\n- File: \"f\", Line 2: \"x\"")).filterMap
            (acceptLine [gs "f"]) ∧
    ∀ c ∈ (extractComments (gs "### Specific Comments:\n- File: \"f\", Line 2: \"x\"")
        [gs "f"]).1, [gs "f"].contains c.path = true :=
  C10_extract_total (gs "### Specific Comments:\n- File: \"f\", Line 2: \"x\"") [gs "f"]

/-- C2: in a third-party, non-preview run that reaches the posting step,
exactly one review is posted, its state is APPROVE exactly when the
resolved verdict is approve and the CI checks passed, and in every other
case the posted state is REQUEST_CHANGES (an approve verdict with a
failing check is downgraded). -/
theorem C2_third_party_state (i : MainInputs)
    (hdry : i.dryRun = false) (hforce : i.forcedry = false)
    (hself : i.isSelfReview = false)
    (hgen : i.savedReview.isSome = true ∨ i.genOk = true)
    (hpend : i.pendingReview = true → i.dismissOk = true) :
    createReviewEvents (mainFlow i).sinkWrites
        = [decideThirdPartyState (resolvedReview i).action (goChecksPassed i.checkConclusions)] ∧
    (decideThirdPartyState (resolvedReview i).action (goChecksPassed i.checkConclusions)
        = gs "APPROVE"
      ↔ ((resolvedReview i).action = gs "approve" ∧ goChecksPassed i.checkConclusions = true)) ∧
    (decideThirdPartyState (resolvedReview i).action (goChecksPassed i.checkConclusions)
        = gs "APPROVE" ∨
     decideThirdPartyState (resolvedReview i).action (goChecksPassed i.checkConclusions)
        = gs "REQUEST_CHANGES") := by
  refine ⟨?_, (decideState_spec _ _).1, (decideState_spec _ _).2⟩
  cases hs : i.savedReview with
  | none =>
    have hg : i.genOk = true := by
      rcases hgen with hsome | hg
      · rw [hs] at hsome; simp at hsome
      · exact hg
    cases hp : i.pendingReview with
    | false =>
      cases hpo : postReviewErrIsNil i.createOutcome <;>
        simp [mainFlow, hdry, hforce, hself, hs, hp, hg, hpo, generatorRuns, createReviewEvents]
    | true =>
      have hd : i.dismissOk = true := hpend hp
      cases hpo : postReviewErrIsNil i.createOutcome <;>
        simp [mainFlow, hdry, hforce, hself, hs, hp, hg, hd, hpo, generatorRuns,
          createReviewEvents]
  | some s =>
    cases hp : i.pendingReview with
    | false =>
      cases hpo : postReviewErrIsNil i.createOutcome <;>
        simp [mainFlow, hdry, hforce, hself, hs, hp, hpo, generatorRuns, createReviewEvents]
    | true =>
      have hd : i.dismissOk = true := hpend hp
      cases hpo : postReviewErrIsNil i.createOutcome <;>
        simp [mainFlow, hdry, hforce, hself, hs, hp, hd, hpo, generatorRuns, createReviewEvents]

/-- C2 witness: a concrete third-party run with an approve verdict and
passing checks posts APPROVE. -/
theorem C2_third_party_state_witness :
    createReviewEvents (mainFlow ⟨some ⟨gs "r", [], gs "approve"⟩, [], false, true, true,
        ⟨[], [], []⟩, false, false, false, COutcome.success⟩).sinkWrites = [gs "APPROVE"] := by
  have h := C2_third_party_state ⟨some ⟨gs "r", [], gs "approve"⟩, [], false, true, true,
      ⟨[], [], []⟩, false, false, false, COutcome.success⟩ rfl rfl rfl (Or.inl rfl) (fun _ => rfl)
  rw [h.1]
  decide

/-- C7: with the preview-only flag set, no mutating Code-Host Sink call
(dismissal or review creation) is made whatever the other inputs are, and
whenever the run generated a review it also wrote it to the cache (runs
that return early on a loaded cache entry or on a pending review generate
nothing, so there is nothing to write). -/
theorem C7_preview_no_sink (i : MainInputs) (h : i.dryRun = true) :
    (mainFlow i).sinkWrites = [] ∧
    ((mainFlow i).reviewGenerated = true → (mainFlow i).cacheWritten = true) := by
  cases hs : i.savedReview with
  | some s => simp [mainFlow, h, hs]
  | none =>
    cases hp : i.pendingReview with
    | true => simp [mainFlow, h, hs, hp]
    | false =>
      cases hg : i.genOk with
      | false => simp [mainFlow, h, hs, hp, hg, generatorRuns]
      | true => simp [mainFlow, h, hs, hp, hg, generatorRuns]

/-- C7 witness: a concrete preview run that generates a review makes no
sink call and writes the cache. -/
theorem C7_preview_no_sink_witness :
    (mainFlow ⟨none, [], false, true, true, ⟨gs "r", [], gs "approve"⟩, false, true, false,
        COutcome.success⟩).sinkWrites = [] ∧
    ((mainFlow ⟨none, [], false, true, true, ⟨gs "r", [], gs "approve"⟩, false, true, false,
        COutcome.success⟩).reviewGenerated = true →
      (mainFlow ⟨none, [], false, true, true, ⟨gs "r", [], gs "approve"⟩, false, true, false,
        COutcome.success⟩).cacheWritten = true) :=
  C7_preview_no_sink ⟨none, [], false, true, true, ⟨gs "r", [], gs "approve"⟩, false, true, false,
    COutcome.success⟩ rfl

/-- C9 counterexample: the claim states that a pending-review rejection
(422) at posting time ends the run without an error exit regardless of
self- versus third-party review. In the concrete self-review run below,
the pending review is dismissed, the posting then fails with 422, and the
run dies fatally (log.Fatalf), because the self-review branch posts
directly instead of going through postReviewWithComments. -/
theorem C9_pending422_counterexample :
    (mainFlow ⟨some ⟨gs "r", [], gs "approve"⟩, [], true, true, true, ⟨[], [], []⟩, true, false,
        false, COutcome.err422⟩).exit = ExitStatus.errorExit ∧
    ExitStatus.errorExit ≠ ExitStatus.ok := by decide

/-- C9 amended: in a non-preview run whose CreateReview call is rejected
with the 422 pending-review condition, a third-party run treats it as a
soft expected condition — the single posting attempt is logged, not
retried, and the run exits without error — while a self-review run
treats the same rejection as fatal and exits with an error. -/
theorem C9_pending422_amended (i : MainInputs)
    (hdry : i.dryRun = false) (hforce : i.forcedry = false)
    (hgen : i.savedReview.isSome = true ∨ i.genOk = true)
    (hpend : i.pendingReview = true → i.dismissOk = true)
    (h422 : i.createOutcome = COutcome.err422) :
    (i.isSelfReview = false →
      (mainFlow i).exit = ExitStatus.ok ∧
      createReviewEvents (mainFlow i).sinkWrites
        = [decideThirdPartyState (resolvedReview i).action (goChecksPassed i.checkConclusions)]) ∧
    (i.isSelfReview = true → (mainFlow i).exit = ExitStatus.errorExit) := by
  have hpo : postReviewErrIsNil i.createOutcome = true := by rw [h422]; rfl
  have hns : (i.createOutcome == COutcome.success) = false := by rw [h422]; rfl
  constructor
  · intro hself
    cases hs : i.savedReview with
    | none =>
      have hg : i.genOk = true := by
        rcases hgen with hsome | hg
        · rw [hs] at hsome; simp at hsome
        · exact hg
      cases hp : i.pendingReview with
      | false =>
        simp [mainFlow, hdry, hforce, hself, hs, hp, hg, hpo, generatorRuns, createReviewEvents]
      | true =>
        have hd : i.dismissOk = true := hpend hp
        simp [mainFlow, hdry, hforce, hself, hs, hp, hg, hd, hpo, generatorRuns,
          createReviewEvents]
    | some s =>
      cases hp : i.pendingReview with
      | false =>
        simp [mainFlow, hdry, hforce, hself, hs, hp, hpo, generatorRuns, createReviewEvents]
      | true =>
        have hd : i.dismissOk = true := hpend hp
        simp [mainFlow, hdry, hforce, hself, hs, hp, hd, hpo, generatorRuns, createReviewEvents]
  · intro hself
    cases hs : i.savedReview with
    | none =>
      have hg : i.genOk = true := by
        rcases hgen with hsome | hg
        · rw [hs] at hsome; simp at hsome
        · exact hg
      cases hp : i.pendingReview with
      | false => simp [mainFlow, hdry, hforce, hself, hs, hp, hg, hns, generatorRuns]
      | true =>
        have hd : i.dismissOk = true := hpend hp
        simp [mainFlow, hdry, hforce, hself, hs, hp, hg, hd, hns, generatorRuns]
    | some s =>
      cases hp : i.pendingReview with
      | false => simp [mainFlow, hdry, hforce, hself, hs, hp, hns, generatorRuns]
      | true =>
        have hd : i.dismissOk = true := hpend hp
        simp [mainFlow, hdry, hforce, hself, hs, hp, hd, hns, generatorRuns]

/-- C9 witness: a concrete third-party run with a dismissed pending
review and a 422 posting rejection ends without an error exit. -/
theorem C9_pending422_amended_witness :
    (mainFlow ⟨some ⟨gs "r", [], gs "approve"⟩, [], true, true, true, ⟨[], [], []⟩, false, false,
        false, COutcome.err422⟩).exit = ExitStatus.ok := by
  have h := C9_pending422_amended ⟨some ⟨gs "r", [], gs "approve"⟩, [], true, true, true,
      ⟨[], [], []⟩, false, false, false, COutcome.err422⟩ rfl rfl (Or.inl rfl) (fun _ => rfl) rfl
  exact (h.1 rfl).1

end GhPrReviewer
